import Mathlib

/-!
# Verification of asyncio-pipe

Shallow embedding of the two implementation variants found in the repository:

* `AsyncConnection` / `AsyncPipe` (file `asyncio_pipe/__init__.py`), called
  variant A below: every async operation awaits an `asyncio.Event` flag
  (set by the event loop's level-triggered reader/writer callbacks),
  performs the synchronous primitive, then clears the flag.

* `Connection` (file `src/asyncio_pipe/__init__.py`), called variant B below:
  the receive side goes through `_wait_for_input`, which loops
  `while not connection.poll(): await event.wait(); event.clear()`,
  while `send`/`send_bytes` are plain synchronous pass-throughs.

The state of one endpoint (the wrapped `multiprocessing.Connection`
together with the wrapper's event flags and the event loop's registration
table) is a `World`.  Each operation is an interpreter producing a
`RunResult`: the returned value (or error), the final world, and a trace of
the externally meaningful actions it performed.  Suspension points consume
entries of a `sched` list: each entry is the world observed upon
resumption, which models arbitrary interference by other tasks while this
task was suspended (messages drained or added, flags set or cleared).
An exhausted schedule means the task is never woken.
-/

/-- Error taxonomy.  `closedConnection` models `OSError("handle is closed")`
raised by the underlying connection's `_check_closed`; `invalidArgument`
models `ValueError` from the bounds checks of `send_bytes`;
`bufferTooSmall` models `BufferTooShort` from `recv_bytes_into`;
`badMessageLength` models the `OSError` raised by `recv_bytes` when the
incoming message exceeds `maxlength`. -/
inductive Err where
  | closedConnection
  | invalidArgument
  | bufferTooSmall
  | badMessageLength
  | eofChannel
  deriving DecidableEq, Repr

/-- Externally meaningful actions an operation can perform, recorded in
traces.  `probeRead b` is a non-blocking `connection.poll()` probe that
returned `b`; `probeErr` is such a probe raising (closed handle);
`probeWrite b` is the (hypothetical) non-blocking write-readiness probe the
specification's recheck loop calls for on the send side — no code in the
repository ever emits it; `suspend` is an actual suspension on an
`asyncio.Event`; `clearEvent` is `event.clear()`; `syncRecv` / `syncSend`
are the blocking synchronous receive / send primitives being issued. -/
inductive Act where
  | probeRead (res : Bool)
  | probeErr
  | probeWrite (res : Bool)
  | suspend
  | clearEvent
  | syncRecv
  | syncSend
  deriving DecidableEq, Repr

/-- The observable state of one wrapped endpoint.

* `pending`: messages queued in the channel, waiting to be received by this
  end (head = oldest).
* `event`: the read-side `asyncio.Event` (`_read_event` in variant A, the
  single `_event` in variant B), set by the loop's `add_reader` callback.
* `writeEvent`: variant A's `_write_event`, set by the `add_writer` callback.
* `writeReady`: whether the OS endpoint would accept a synchronous send
  without blocking (pipe buffer not full).
* `closed`: the underlying connection's closed flag.
* `sent`: messages this end has handed to the underlying synchronous send
  (in order); delivery to the peer is modelled by `deliver`.
* `readerRegistered` / `writerRegistered`: the event loop's watch table for
  this endpoint's descriptor. -/
structure World (α : Type) where
  pending : List α
  event : Bool
  writeEvent : Bool
  writeReady : Bool
  closed : Bool
  sent : List α
  readerRegistered : Bool
  writerRegistered : Bool
  deriving DecidableEq, Repr

/-- Outcome of running one asynchronous operation.

* `done v w tr`: returned `v`, leaving world `w`, having performed `tr`.
* `error e w tr`: raised `e`.
* `suspended w tr`: parked on an event wait and never woken within the
  given schedule (the world is the one at the suspension point).
* `blockedSync w tr`: issued a blocking synchronous call that cannot
  complete — this blocks the whole event loop thread. -/
inductive RunResult (α β : Type) where
  | done (v : β) (w : World α) (tr : List Act)
  | error (e : Err) (w : World α) (tr : List Act)
  | suspended (w : World α) (tr : List Act)
  | blockedSync (w : World α) (tr : List Act)
  deriving DecidableEq, Repr

namespace RunResult

/-- The final world of an outcome. -/
def world : RunResult α β → World α
  | .done _ w _ => w
  | .error _ w _ => w
  | .suspended w _ => w
  | .blockedSync w _ => w

/-- The trace of an outcome. -/
def trace : RunResult α β → List Act
  | .done _ _ tr => tr
  | .error _ _ tr => tr
  | .suspended _ tr => tr
  | .blockedSync _ tr => tr

/-- The returned value, when the operation completed normally. -/
def retVal : RunResult α β → Option β
  | .done v _ _ => some v
  | _ => none

/-- Whether the operation is still parked on a wait. -/
def isSuspended : RunResult α β → Bool
  | .suspended _ _ => true
  | _ => false

/-- Prepend actions to an outcome's trace. -/
def prependTrace (pre : List Act) : RunResult α β → RunResult α β
  | .done v w tr => .done v w (pre ++ tr)
  | .error e w tr => .error e w (pre ++ tr)
  | .suspended w tr => .suspended w (pre ++ tr)
  | .blockedSync w tr => .blockedSync w (pre ++ tr)

end RunResult

/-! ## The underlying synchronous endpoint

`multiprocessing.Connection` is an external collaborator (Python standard
library, not part of this repository).  Its operations are modelled from
the specification's boundary description of the Duplex Channel Endpoint:
a pollable handle with synchronous send/receive, a closed flag, and a
closed-handle check (`OSError`) guarding every operation.  `Option` in the
result distinguishes "would block" (`none`) from completion. -/

/-- Models `connection.fileno()`: raises on a closed handle, else yields the
descriptor (its numeric value is irrelevant to every claim). -/
def connFileno (w : World α) : Except Err Nat :=
  if w.closed then .error .closedConnection else .ok 0

/-- Models `connection.poll()` with no timeout: non-blocking probe, true iff a
message is pending; raises on a closed handle. -/
def connPoll (w : World α) : Except Err Bool :=
  if w.closed then .error .closedConnection else .ok (!w.pending.isEmpty)

/-- Models `connection.recv()`: blocking synchronous receive.  `ok none` means the
call blocks (no pending message): issued from event-loop code this stalls
the whole loop. -/
def connRecv (w : World α) : Except Err (Option (α × World α)) :=
  if w.closed then .error .closedConnection
  else
    match w.pending with
    | [] => .ok none
    | m :: rest => .ok (some (m, { w with pending := rest }))

/-- Models `connection.send(obj)`: blocking synchronous send; blocks when the OS
endpoint has no write capacity. -/
def connSend (v : α) (w : World α) : Except Err (Option (World α)) :=
  if w.closed then .error .closedConnection
  else if w.writeReady then .ok (some { w with sent := w.sent ++ [v] })
  else .ok none

/-- Models `connection.close()`. -/
def connClose (w : World α) : Except Err (World α) :=
  if w.closed then .error .closedConnection
  else .ok { w with closed := true }

/-- A byte message for the raw-byte operations: a list of byte values. -/
abbrev Bytes := List Nat

/-- Models `connection.send_bytes(buf, offset, size)`: the bounds validation and
slice semantics of the synchronous primitive (offset and size are Python
integers, hence `Int`): negative offset, offset beyond the buffer,
negative size, and `offset + size > len(buf)` each raise; otherwise the
slice `buf[offset : offset+size]` is sent.  When `size` is absent the
primitive sends the whole tail from `offset` (the size checks cannot fire
for the defaulted `size = len - offset`, so they are inlined away). -/
def connSendBytes (buf : Bytes) (offset : Int) (size : Option Int)
    (w : World Bytes) : Except Err (Option (World Bytes)) :=
  if w.closed then .error .closedConnection
  else if offset < 0 then .error .invalidArgument
  else if (buf.length : Int) < offset then .error .invalidArgument
  else
    match size with
    | none =>
      if w.writeReady then
        .ok (some { w with sent := w.sent ++ [buf.drop offset.toNat] })
      else .ok none
    | some s =>
      if s < 0 then .error .invalidArgument
      else if (buf.length : Int) < offset + s then .error .invalidArgument
      else if w.writeReady then
        .ok (some
          { w with sent := w.sent ++ [(buf.drop offset.toNat).take s.toNat] })
      else .ok none

/-- Models `connection.recv_bytes(maxlength)`: blocking synchronous byte receive;
raises when the incoming message exceeds `maxlength`. -/
def connRecvBytes (maxlength : Option Nat) (w : World Bytes) :
    Except Err (Option (Bytes × World Bytes)) :=
  if w.closed then .error .closedConnection
  else
    match w.pending with
    | [] => .ok none
    | m :: rest =>
      match maxlength with
      | some L => if L < m.length then .error .badMessageLength
                  else .ok (some (m, { w with pending := rest }))
      | none => .ok (some (m, { w with pending := rest }))

/-- Models `connection.recv_bytes_into(buf, offset)`: blocking synchronous receive
into a caller buffer of capacity `cap`; yields the byte count, raising
`BufferTooShort` when the message exceeds the remaining capacity. -/
def connRecvBytesInto (cap : Nat) (offset : Nat) (w : World Bytes) :
    Except Err (Option (Nat × World Bytes)) :=
  if w.closed then .error .closedConnection
  else
    match w.pending with
    | [] => .ok none
    | m :: rest =>
      if cap < offset + m.length then .error .bufferTooSmall
      else .ok (some (m.length, { w with pending := rest }))

/-! ## Suspension -/

/-- Models `await event.wait()` on the flag selected by `get`.  If the flag is
already set the coroutine returns without suspending.  Otherwise the task
suspends; the next schedule entry is the world observed upon resumption
(other tasks may have run meanwhile), and an exhausted schedule means the
task is never woken. -/
def awaitEvent (get : World α → Bool) (w : World α)
    (sched : List (World α)) :
    Option (World α × List (World α)) × List Act :=
  if get w then (some (w, sched), [])
  else
    match sched with
    | [] => (none, [Act.suspend])
    | w' :: rest => (some (w', rest), [Act.suspend])

/-! ## Variant A: `AsyncConnection` (file `asyncio_pipe/__init__.py`) -/

namespace AsyncConnection

/-- Models `AsyncConnection.send(obj)`:
`await self._write_event.wait(); self._sync_connection.send(obj);
self._write_event.clear()`. -/
def send (v : α) (w : World α) (sched : List (World α)) : RunResult α Unit :=
  match awaitEvent (fun x => x.writeEvent) w sched with
  | (none, tr) => .suspended w tr
  | (some (w1, _), tr) =>
    match connSend v w1 with
    | .error e => .error e w1 (tr ++ [Act.syncSend])
    | .ok none => .blockedSync w1 (tr ++ [Act.syncSend])
    | .ok (some w2) =>
      .done () { w2 with writeEvent := false } (tr ++ [Act.syncSend, Act.clearEvent])

/-- Models `AsyncConnection.send_bytes(buf, offset, size)`:
`await self._write_event.wait();
self._sync_connection.send_bytes(buf, offset, size);
self._write_event.clear()`. -/
def send_bytes (buf : Bytes) (offset : Int) (size : Option Int)
    (w : World Bytes) (sched : List (World Bytes)) : RunResult Bytes Unit :=
  match awaitEvent (fun x => x.writeEvent) w sched with
  | (none, tr) => .suspended w tr
  | (some (w1, _), tr) =>
    match connSendBytes buf offset size w1 with
    | .error e => .error e w1 (tr ++ [Act.syncSend])
    | .ok none => .blockedSync w1 (tr ++ [Act.syncSend])
    | .ok (some w2) =>
      .done () { w2 with writeEvent := false } (tr ++ [Act.syncSend, Act.clearEvent])

/-- Models `AsyncConnection.poll(timeout)`:
`await asyncio.wait_for(self._read_event.wait(), timeout)`, returning
`False` on `TimeoutError` and `True` otherwise.  The connection itself is
never consulted.  A timeout is `none` for "wait indefinitely" and
`some n` for a bound that allows at most `n` wakeups before expiring;
`asyncio.Event.wait` returns without suspending when the flag is already
set. -/
def poll (timeout : Option Nat) (w : World α) (sched : List (World α)) :
    RunResult α Bool :=
  if w.event then .done true w []
  else
    match timeout with
    | some 0 => .done false w []
    | some (_ + 1) =>
      match sched with
      | [] => .done false w [Act.suspend]
      | w' :: _ => .done true w' [Act.suspend]
    | none =>
      match sched with
      | [] => .suspended w [Act.suspend]
      | w' :: _ => .done true w' [Act.suspend]

/-- Models `AsyncConnection.recv()`:
`await self._read_event.wait(); obj = self._sync_connection.recv();
self._read_event.clear(); return obj`. -/
def recv (w : World α) (sched : List (World α)) : RunResult α α :=
  match awaitEvent (fun x => x.event) w sched with
  | (none, tr) => .suspended w tr
  | (some (w1, _), tr) =>
    match connRecv w1 with
    | .error e => .error e w1 (tr ++ [Act.syncRecv])
    | .ok none => .blockedSync w1 (tr ++ [Act.syncRecv])
    | .ok (some (v, w2)) =>
      .done v { w2 with event := false } (tr ++ [Act.syncRecv, Act.clearEvent])

/-- Models `AsyncConnection.recv_bytes(maxlength)`: same shape as `recv` over the
raw-byte primitive. -/
def recv_bytes (maxlength : Option Nat) (w : World Bytes)
    (sched : List (World Bytes)) : RunResult Bytes Bytes :=
  match awaitEvent (fun x => x.event) w sched with
  | (none, tr) => .suspended w tr
  | (some (w1, _), tr) =>
    match connRecvBytes maxlength w1 with
    | .error e => .error e w1 (tr ++ [Act.syncRecv])
    | .ok none => .blockedSync w1 (tr ++ [Act.syncRecv])
    | .ok (some (v, w2)) =>
      .done v { w2 with event := false } (tr ++ [Act.syncRecv, Act.clearEvent])

/-- Models `AsyncConnection.recv_bytes_into(buf, offset)`: same shape as `recv`
over the receive-into primitive, yielding the byte count. -/
def recv_bytes_into (cap : Nat) (offset : Nat) (w : World Bytes)
    (sched : List (World Bytes)) : RunResult Bytes Nat :=
  match awaitEvent (fun x => x.event) w sched with
  | (none, tr) => .suspended w tr
  | (some (w1, _), tr) =>
    match connRecvBytesInto cap offset w1 with
    | .error e => .error e w1 (tr ++ [Act.syncRecv])
    | .ok none => .blockedSync w1 (tr ++ [Act.syncRecv])
    | .ok (some (v, w2)) =>
      .done v { w2 with event := false } (tr ++ [Act.syncRecv, Act.clearEvent])

/-- Models `AsyncConnection.close()`:
`self._loop.remove_reader(self.fileno());
self._loop.remove_writer(self.fileno());
self._sync_connection.close()` — note that each `self.fileno()` call
re-queries the underlying handle, which raises once it is closed. -/
def close (w : World α) : Except Err (World α) :=
  match connFileno w with
  | .error e => .error e
  | .ok _ =>
    let w1 := { w with readerRegistered := false }
    match connFileno w1 with
    | .error e => .error e
    | .ok _ =>
      let w2 := { w1 with writerRegistered := false }
      connClose w2

end AsyncConnection

/-! ## Variant B: `Connection` (file `src/asyncio_pipe/__init__.py`) -/

namespace Connection

/-- Models `Connection.send(obj)`: a plain synchronous pass-through,
`self._connection.send(obj)` — no suspension, no readiness check. -/
def send (v : α) (w : World α) : RunResult α Unit :=
  match connSend v w with
  | .error e => .error e w [Act.syncSend]
  | .ok none => .blockedSync w [Act.syncSend]
  | .ok (some w') => .done () w' [Act.syncSend]

/-- Models `Connection.send_bytes(buf, offset, size)`: a plain synchronous
pass-through of the raw-byte send. -/
def send_bytes (buf : Bytes) (offset : Int) (size : Option Int)
    (w : World Bytes) : RunResult Bytes Unit :=
  match connSendBytes buf offset size w with
  | .error e => .error e w [Act.syncSend]
  | .ok none => .blockedSync w [Act.syncSend]
  | .ok (some w') => .done () w' [Act.syncSend]

/-- Models `Connection._wait_for_input()`:
`while not self._connection.poll(): await self._event.wait();
self._event.clear()`.  `fuel` bounds the number of loop iterations (the
Python loop is unbounded); running out of fuel counts as still waiting. -/
def wait_for_input : Nat → World α → List (World α) → RunResult α Unit
  | 0, w, _ =>
    match connPoll w with
    | .error e => .error e w [Act.probeErr]
    | .ok true => .done () w [Act.probeRead true]
    | .ok false => .suspended w [Act.probeRead false]
  | fuel + 1, w, sched =>
    match connPoll w with
    | .error e => .error e w [Act.probeErr]
    | .ok true => .done () w [Act.probeRead true]
    | .ok false =>
      if w.event then
        (wait_for_input fuel { w with event := false } sched).prependTrace
          [Act.probeRead false, Act.clearEvent]
      else
        match sched with
        | [] => .suspended w [Act.probeRead false, Act.suspend]
        | w' :: rest =>
          (wait_for_input fuel { w' with event := false } rest).prependTrace
            [Act.probeRead false, Act.suspend, Act.clearEvent]

/-- Models `Connection.recv()`:
`await self._wait_for_input(); return self._connection.recv()`. -/
def recv (fuel : Nat) (w : World α) (sched : List (World α)) :
    RunResult α α :=
  match wait_for_input fuel w sched with
  | .done _ w1 tr =>
    match connRecv w1 with
    | .error e => .error e w1 (tr ++ [Act.syncRecv])
    | .ok none => .blockedSync w1 (tr ++ [Act.syncRecv])
    | .ok (some (v, w2)) => .done v w2 (tr ++ [Act.syncRecv])
  | .error e w1 tr => .error e w1 tr
  | .suspended w1 tr => .suspended w1 tr
  | .blockedSync w1 tr => .blockedSync w1 tr

/-- Models `Connection.recv_bytes(maxlength)`:
`await self._wait_for_input(); return self._connection.recv_bytes(maxlength)`. -/
def recv_bytes (fuel : Nat) (maxlength : Option Nat) (w : World Bytes)
    (sched : List (World Bytes)) : RunResult Bytes Bytes :=
  match wait_for_input fuel w sched with
  | .done _ w1 tr =>
    match connRecvBytes maxlength w1 with
    | .error e => .error e w1 (tr ++ [Act.syncRecv])
    | .ok none => .blockedSync w1 (tr ++ [Act.syncRecv])
    | .ok (some (v, w2)) => .done v w2 (tr ++ [Act.syncRecv])
  | .error e w1 tr => .error e w1 tr
  | .suspended w1 tr => .suspended w1 tr
  | .blockedSync w1 tr => .blockedSync w1 tr

/-- Models `Connection.recv_bytes_into(buf, offset)`:
`await self._wait_for_input();
return self._connection.recv_bytes_into(buf, offset)`. -/
def recv_bytes_into (fuel : Nat) (cap : Nat) (offset : Nat) (w : World Bytes)
    (sched : List (World Bytes)) : RunResult Bytes Nat :=
  match wait_for_input fuel w sched with
  | .done _ w1 tr =>
    match connRecvBytesInto cap offset w1 with
    | .error e => .error e w1 (tr ++ [Act.syncRecv])
    | .ok none => .blockedSync w1 (tr ++ [Act.syncRecv])
    | .ok (some (v, w2)) => .done v w2 (tr ++ [Act.syncRecv])
  | .error e w1 tr => .error e w1 tr
  | .suspended w1 tr => .suspended w1 tr
  | .blockedSync w1 tr => .blockedSync w1 tr

/-- Models `Connection.poll(timeout)`:
`if self._connection.poll(): return True`, then
`await asyncio.wait_for(self._wait_for_input(), timeout)` — returning
`False` on `TimeoutError` — and finally
`return self._connection.poll()`.  A finite timeout turns an unfinished
wait into the `False` return; exceptions propagate. -/
def poll (fuel : Nat) (timeout : Option Nat) (w : World α)
    (sched : List (World α)) : RunResult α Bool :=
  match connPoll w with
  | .error e => .error e w [Act.probeErr]
  | .ok true => .done true w [Act.probeRead true]
  | .ok false =>
    match wait_for_input fuel w sched, timeout with
    | .done _ w1 tr, _ =>
      match connPoll w1 with
      | .error e => .error e w1 (Act.probeRead false :: (tr ++ [Act.probeErr]))
      | .ok b => .done b w1 (Act.probeRead false :: (tr ++ [Act.probeRead b]))
    | .error e w1 tr, _ => .error e w1 (Act.probeRead false :: tr)
    | .suspended w1 tr, some _ => .done false w1 (Act.probeRead false :: tr)
    | .suspended w1 tr, none => .suspended w1 (Act.probeRead false :: tr)
    | .blockedSync w1 tr, _ => .blockedSync w1 (Act.probeRead false :: tr)

/-- Models `Connection.close()`: `self._connection.close()` — nothing is ever
removed from the event loop's watch table. -/
def close (w : World α) : Except Err (World α) :=
  connClose w

end Connection

/-! ## Glue: delivery between the two ends, and the event loop's callbacks -/

/-- Transport across the OS channel: everything the sender has handed to
the synchronous send becomes pending at the receiving end. -/
def deliver (sender receiver : World α) : World α :=
  { receiver with pending := receiver.pending ++ sender.sent }

/-- One cycle of the event loop's level-triggered callbacks for a watched
descriptor: `add_reader`'s callback (`event.set`) fires while input is
pending, `add_writer`'s callback fires while the endpoint is writable. -/
def loopCycle (w : World α) : World α :=
  { w with
    event := w.event || (w.readerRegistered && !w.pending.isEmpty),
    writeEvent := w.writeEvent || (w.writerRegistered && w.writeReady) }

/-! ## Trace disciplines

The specification's central correctness property is expressed on traces:
a synchronous primitive may be issued only when a non-blocking probe has
confirmed readiness since the task last resumed from a suspension. -/

/-- State-passing scan for `recheckOK`: `confirmed` records whether a
non-blocking read probe has returned true since the last resumption (or
since the last synchronous receive, which consumes the probed data). -/
def rcGo (confirmed : Bool) : List Act → Bool
  | [] => true
  | Act.probeRead b :: rest => rcGo b rest
  | Act.probeErr :: rest => rcGo false rest
  | Act.probeWrite _ :: rest => rcGo confirmed rest
  | Act.suspend :: rest => rcGo false rest
  | Act.clearEvent :: rest => rcGo confirmed rest
  | Act.syncRecv :: rest => confirmed && rcGo false rest
  | Act.syncSend :: rest => rcGo confirmed rest

/-- Read-side recheck discipline: every synchronous receive in the trace
is covered by a non-blocking probe that returned true, performed after the
most recent resumption from a suspension. -/
def recheckOK (tr : List Act) : Bool :=
  rcGo false tr

/-- State-passing scan for `sendRecheckOK`, analogous to `rcGo` with
write-readiness probes confirming. -/
def scGo (confirmed : Bool) : List Act → Bool
  | [] => true
  | Act.probeWrite b :: rest => scGo b rest
  | Act.probeRead _ :: rest => scGo confirmed rest
  | Act.probeErr :: rest => scGo confirmed rest
  | Act.suspend :: rest => scGo false rest
  | Act.clearEvent :: rest => scGo confirmed rest
  | Act.syncSend :: rest => confirmed && scGo false rest
  | Act.syncRecv :: rest => scGo confirmed rest

/-- Write-side recheck discipline: every synchronous send in the trace is
covered by a non-blocking write-readiness probe that returned true,
performed after the most recent resumption from a suspension. -/
def sendRecheckOK (tr : List Act) : Bool :=
  scGo false tr

/-- State-passing scan for `clearBetweenSuspends`: `cleared` records
whether `event.clear()` has run since the previous suspension (initially
true: the first suspension needs no preceding clear). -/
def cbGo (cleared : Bool) : List Act → Bool
  | [] => true
  | Act.suspend :: rest => cleared && cbGo false rest
  | Act.clearEvent :: rest => cbGo true rest
  | _ :: rest => cbGo cleared rest

/-- Between any two consecutive suspensions of the trace the event is
cleared, so a loop re-waits instead of spinning on a still-set flag. -/
def clearBetweenSuspends (tr : List Act) : Bool :=
  cbGo true tr

/-! ## Concrete worlds used by the claims -/

/-- A freshly wrapped open endpoint, before any event loop cycle: nothing
pending, both events unset, endpoint writable, both directions registered
(as `AsyncConnection.__init__` does). -/
def freshWorld : World Nat :=
  { pending := [], event := false, writeEvent := false, writeReady := true,
    closed := false, sent := [], readerRegistered := true,
    writerRegistered := true }

/-- The byte-payload analogue of `freshWorld`. -/
def freshBytes : World Bytes :=
  { pending := [], event := false, writeEvent := false, writeReady := true,
    closed := false, sent := [], readerRegistered := true,
    writerRegistered := true }

/-- The raw synchronous peer end returned by `AsyncPipe`: never registered
with the event loop. -/
def rawPeer : World Nat :=
  { freshWorld with readerRegistered := false, writerRegistered := false }

/-- The byte-payload analogue of `rawPeer`. -/
def rawPeerBytes : World Bytes :=
  { freshBytes with readerRegistered := false, writerRegistered := false }

/-- The async side of a fresh `AsyncPipe` after one event loop cycle: the
writer callback has set the write event (the pipe is writable), the reader
callback has not fired (nothing pending). -/
def startWorld : World Nat := loopCycle freshWorld

/-- The byte-payload analogue of `startWorld`. -/
def startBytes : World Bytes := loopCycle freshBytes

/-- A wakeup world: the read event was set while the task was suspended,
but the data that caused it has already been drained by another task. -/
def wokenDrained : World Nat := { freshWorld with event := true }

/-- A closed endpoint. -/
def closedWorld : World Nat := { freshWorld with closed := true }

/-- What the first `AsyncConnection.close` leaves behind: deregistered and
closed. -/
def closedDereg : World Nat :=
  { freshWorld with
    closed := true, readerRegistered := false, writerRegistered := false }

/-- Two messages pending and the read event set (the reader callback has
fired). -/
def twoMsgWorld : World Nat :=
  { freshWorld with pending := [1, 2], event := true }

/-- The state right after `AsyncConnection.recv` on `twoMsgWorld`: one
message still pending, but the event flag has been cleared. -/
def oneMsgWorld : World Nat := { freshWorld with pending := [2] }

/-! ## Helper lemmas -/

theorem prependTrace_trace (pre : List Act) (r : RunResult α β) :
    (r.prependTrace pre).trace = pre ++ r.trace := by
  cases r <;> rfl

theorem prependTrace_world (pre : List Act) (r : RunResult α β) :
    (r.prependTrace pre).world = r.world := by
  cases r <;> rfl

theorem prependTrace_isSuspended (pre : List Act) (r : RunResult α β) :
    (r.prependTrace pre).isSuspended = r.isSuspended := by
  cases r <;> rfl

theorem prependTrace_eq_done {pre : List Act} {r : RunResult α β} {v : β}
    {w : World α} {tr : List Act} :
    r.prependTrace pre = .done v w tr ↔
      ∃ tr2, r = .done v w tr2 ∧ tr = pre ++ tr2 := by
  cases r <;> simp [RunResult.prependTrace]
  constructor
  · rintro ⟨h1, h2, h3⟩
    exact ⟨_, ⟨h1, h2, rfl⟩, h3.symm⟩
  · rintro ⟨tr2, ⟨h1, h2, h3⟩, h4⟩
    exact ⟨h1, h2, by rw [h4, h3]⟩

/-- When the recheck loop returns normally, the world it returns in is the
one whose non-blocking probe just came back true: open, with data pending,
and the trace ends with that successful probe. -/
theorem wfi_done {fuel : Nat} {w w' : World α} {sched : List (World α)}
    {v : Unit} {tr : List Act}
    (h : Connection.wait_for_input fuel w sched = .done v w' tr) :
    w'.closed = false ∧ w'.pending ≠ [] ∧
      ∃ tr0, tr = tr0 ++ [Act.probeRead true] := by
  induction fuel generalizing w sched tr with
  | zero =>
    cases hc : w.closed
    · rcases hp : w.pending with _ | ⟨m, rest⟩
      · simp [Connection.wait_for_input, connPoll, hc, hp] at h
      · simp [Connection.wait_for_input, connPoll, hc, hp] at h
        obtain ⟨rfl, rfl⟩ := h
        exact ⟨hc, by simp [hp], [], rfl⟩
    · simp [Connection.wait_for_input, connPoll, hc] at h
  | succ n ih =>
    cases hc : w.closed
    · rcases hp : w.pending with _ | ⟨m, rest⟩
      · cases he : w.event
        · cases sched with
          | nil => simp [Connection.wait_for_input, connPoll, hc, hp, he] at h
          | cons x rest' =>
            simp only [Connection.wait_for_input, connPoll, hc, hp, he] at h
            simp at h
            rw [prependTrace_eq_done] at h
            rcases h with ⟨tr2, h2, rfl⟩
            rcases ih h2 with ⟨h3, h4, tr0, rfl⟩
            exact ⟨h3, h4, _ ++ tr0, by rw [List.append_assoc]⟩
        · simp only [Connection.wait_for_input, connPoll, hc, hp, he] at h
          simp at h
          rw [prependTrace_eq_done] at h
          rcases h with ⟨tr2, h2, rfl⟩
          rcases ih h2 with ⟨h3, h4, tr0, rfl⟩
          exact ⟨h3, h4, _ ++ tr0, by rw [List.append_assoc]⟩
      · simp [Connection.wait_for_input, connPoll, hc, hp] at h
        obtain ⟨rfl, rfl⟩ := h
        exact ⟨hc, by simp [hp], [], rfl⟩
    · simp [Connection.wait_for_input, connPoll, hc] at h

/-- When the first probe already succeeds, the recheck loop returns at once
whatever the fuel, with just that probe in its trace. -/
theorem wfi_of_probe_true {fuel : Nat} {w : World α} {sched : List (World α)}
    (hc : w.closed = false) (hp : w.pending ≠ []) :
    Connection.wait_for_input fuel w sched = .done () w [Act.probeRead true] := by
  rcases hl : w.pending with _ | ⟨m, rest⟩
  · exact absurd hl hp
  · cases fuel <;> simp [Connection.wait_for_input, connPoll, hc, hl]

/-- The recheck loop itself never performs a synchronous receive. -/
theorem wfi_no_syncRecv (fuel : Nat) (w : World α) (sched : List (World α)) :
    Act.syncRecv ∉ (Connection.wait_for_input fuel w sched).trace := by
  induction fuel generalizing w sched with
  | zero =>
    cases hc : w.closed <;> rcases hp : w.pending with _ | ⟨m, rest⟩ <;>
      simp [Connection.wait_for_input, connPoll, hc, hp, RunResult.trace]
  | succ n ih =>
    cases hc : w.closed
    · rcases hp : w.pending with _ | ⟨m, rest⟩
      · cases he : w.event
        · cases sched with
          | nil =>
            simp [Connection.wait_for_input, connPoll, hc, hp, he,
              RunResult.trace]
          | cons x rest' =>
            simp only [Connection.wait_for_input, connPoll, hc, hp, he]
            simp [prependTrace_trace]
            exact ih _ _
        · simp only [Connection.wait_for_input, connPoll, hc, hp, he]
          simp [prependTrace_trace]
          exact ih _ _
      · simp [Connection.wait_for_input, connPoll, hc, hp, RunResult.trace]
    · simp [Connection.wait_for_input, connPoll, hc, RunResult.trace]

/-- The recheck loop never touches the channel's contents: whatever world
it ends in (returned, still waiting, or failed) has the pending queue the
initial world and every resumption world share. -/
theorem wfi_world_pending {p : List α} : ∀ {fuel : Nat} {w : World α}
    {sched : List (World α)}, w.pending = p → (∀ x ∈ sched, x.pending = p) →
    ((Connection.wait_for_input fuel w sched).world).pending = p := by
  intro fuel
  induction fuel with
  | zero =>
    intro w sched hw hs
    cases hc : w.closed <;> rcases hp : w.pending with _ | ⟨m, rest⟩ <;>
      simp [Connection.wait_for_input, connPoll, hc, hp, RunResult.world,
        ← hw, hp]
  | succ n ih =>
    intro w sched hw hs
    cases hc : w.closed
    · rcases hp : w.pending with _ | ⟨m, rest⟩
      · cases he : w.event
        · cases sched with
          | nil =>
            simp [Connection.wait_for_input, connPoll, hc, hp, he,
              RunResult.world, ← hw, hp]
          | cons x rest' =>
            simp only [Connection.wait_for_input, connPoll, hc, hp, he]
            simp [prependTrace_world]
            exact ih (by simpa using hs x (by simp))
              (fun y hy => hs y (by simp [hy]))
        · simp only [Connection.wait_for_input, connPoll, hc, hp, he]
          simp [prependTrace_world]
          exact ih (by simpa [hp] using hw) hs
      · simp [Connection.wait_for_input, connPoll, hc, hp, RunResult.world,
          ← hw, hp]
    · simp [Connection.wait_for_input, connPoll, hc, RunResult.world, hw]

/-- With nothing pending and no wakeup forthcoming, the recheck loop stays
suspended (it never falls through to a caller). -/
theorem wfi_suspended_of_empty {fuel : Nat} {w : World α}
    (hc : w.closed = false) (hp : w.pending = []) :
    ∃ w' tr, Connection.wait_for_input fuel w [] = .suspended w' tr := by
  induction fuel generalizing w with
  | zero =>
    exact ⟨w, [Act.probeRead false],
      by simp [Connection.wait_for_input, connPoll, hc, hp]⟩
  | succ n ih =>
    cases he : w.event
    · exact ⟨w, [Act.probeRead false, Act.suspend],
        by simp [Connection.wait_for_input, connPoll, hc, hp, he]⟩
    · rcases ih (w := { w with event := false }) hc hp with ⟨w', tr, hw⟩
      simp only [Connection.wait_for_input, connPoll, hc, hp, he]
      simp
      rw [hp, hc] at hw
      rw [hw]
      exact ⟨w', [Act.probeRead false, Act.clearEvent] ++ tr, rfl⟩

/-- The recheck loop clears the event between any two of its suspensions:
it re-waits instead of spinning on a still-set flag. -/
theorem wfi_clearBetween (fuel : Nat) (w : World α) (sched : List (World α)) :
    clearBetweenSuspends (Connection.wait_for_input fuel w sched).trace = true := by
  unfold clearBetweenSuspends
  induction fuel generalizing w sched with
  | zero =>
    cases hc : w.closed <;> rcases hp : w.pending with _ | ⟨m, rest⟩ <;>
      simp [Connection.wait_for_input, connPoll, hc, hp, RunResult.trace, cbGo]
  | succ n ih =>
    cases hc : w.closed
    · rcases hp : w.pending with _ | ⟨m, rest⟩
      · cases he : w.event
        · cases sched with
          | nil =>
            simp [Connection.wait_for_input, connPoll, hc, hp, he,
              RunResult.trace, cbGo]
          | cons x rest' =>
            simp only [Connection.wait_for_input, connPoll, hc, hp, he]
            simp [prependTrace_trace, cbGo]
            exact ih _ _
        · simp only [Connection.wait_for_input, connPoll, hc, hp, he]
          simp [prependTrace_trace, cbGo]
          exact ih _ _
      · simp [Connection.wait_for_input, connPoll, hc, hp, RunResult.trace,
          cbGo]
    · simp [Connection.wait_for_input, connPoll, hc, RunResult.trace, cbGo]

/-! ## Claims -/

/-- C1: the claim says every receive-side operation re-checks actual
readiness with a non-blocking probe after resuming from a suspended wait,
and never issues the synchronous receive on the strength of the wakeup
alone.  `AsyncConnection.recv` violates this: suspended with the channel
empty, woken by the event being set, it issues the blocking synchronous
receive immediately — no probe appears in its trace — and, the data having
been drained by another task before the resumption, that synchronous call
blocks the whole event loop. -/
theorem C1_async_recv_syncs_without_probe :
    AsyncConnection.recv freshWorld [wokenDrained] =
      .blockedSync wokenDrained [Act.suspend, Act.syncRecv] ∧
    recheckOK (AsyncConnection.recv freshWorld [wokenDrained]).trace = false := by
  decide

/-- C4: the claim says `close` is idempotent and a second call leaves the
state unchanged.  In fact `AsyncConnection.close` raises
`ClosedConnection` (`OSError("handle is closed")`) on the second call,
because `remove_reader(self.fileno())` re-queries the descriptor of the
already-closed endpoint; and `Connection.close` deregisters neither
direction (the reader registration survives the close). -/
theorem C4_close_not_idempotent :
    AsyncConnection.close freshWorld = .ok closedDereg ∧
    closedDereg.closed = true ∧
    AsyncConnection.close closedDereg = .error .closedConnection ∧
    Connection.close freshWorld = .ok closedWorld ∧
    closedWorld.readerRegistered = true :=
  ⟨rfl, rfl, rfl, rfl, rfl⟩

/-- C3 counterexample: the claim says every operation other than `close`
and the immediate queries fails with `ClosedConnection` on a closed
facade.  `AsyncConnection.poll` on a closed facade completes normally with
`False` (it only consults the event flag, never the endpoint), and
`AsyncConnection.recv` on a closed facade with the event unset suspends
forever instead of failing. -/
theorem C3_closed_poll_returns_false :
    AsyncConnection.poll (some 0) closedWorld [] = .done false closedWorld [] ∧
    AsyncConnection.recv closedWorld [] = .suspended closedWorld [Act.suspend] := by
  decide

/-- C5 counterexample: the claim says `poll(timeout=0)` returns true
immediately when data is already pending.  After `AsyncConnection.recv`
consumes one of two pending messages it clears the read event, and
`AsyncConnection.poll(0)` — which consults only that flag — then returns
false although a message is still pending. -/
theorem C5_poll_zero_misses_pending :
    AsyncConnection.recv twoMsgWorld [] =
      .done 1 oneMsgWorld [Act.syncRecv, Act.clearEvent] ∧
    oneMsgWorld.pending = [2] ∧
    AsyncConnection.poll (some 0) oneMsgWorld [] = .done false oneMsgWorld [] := by
  decide

/-- C7 counterexample: the claim says the synchronous send primitive is
never invoked before write readiness has been confirmed via the recheck
loop.  `Connection.send` invokes it immediately — no suspension and no
write probe at all — and `AsyncConnection.send` invokes it straight after
the event wait, also without any non-blocking write-readiness probe. -/
theorem C7_send_unconfirmed :
    Connection.send 5 freshWorld =
      .done () { freshWorld with sent := [5] } [Act.syncSend] ∧
    sendRecheckOK (Connection.send 5 freshWorld).trace = false ∧
    Act.suspend ∉ (Connection.send 5 freshWorld).trace ∧
    AsyncConnection.send 5 startWorld [] =
      .done () { freshWorld with sent := [5] } [Act.syncSend, Act.clearEvent] ∧
    sendRecheckOK (AsyncConnection.send 5 startWorld []).trace = false := by
  decide

/-- C9 counterexample: the claim says invalid buffer bounds surface an
`InvalidArgument` error immediately, before suspending on write readiness,
and that valid arguments never raise it.  `AsyncConnection.send_bytes`
with a negative offset suspends on the (unset) write event before any
validation runs; and an in-claim-valid call (`offset = 5` beyond a
1-byte buffer, no size given) does raise `InvalidArgument` from the
synchronous primitive. -/
theorem C9_send_bytes_validation_not_immediate :
    AsyncConnection.send_bytes [1, 2, 3] (-1) none freshBytes [] =
      .suspended freshBytes [Act.suspend] ∧
    Connection.send_bytes [1] 5 none freshBytes =
      .error .invalidArgument freshBytes [Act.syncSend] := by
  decide

/-- C2: `poll` never performs the actual receive, in either variant: no
synchronous receive appears in its trace, and the pending data of the
channel after the call is whatever it was before (provided the other
tasks that run during its suspensions leave the pending queue alone — the
call itself never consumes a message, so the readiness another waiter
would observe by probing the endpoint is untouched). -/
theorem C2_poll_frame (α : Type) (timeout : Option Nat) (fuel : Nat)
    (w : World α) (sched : List (World α)) :
    (Act.syncRecv ∉ (AsyncConnection.poll timeout w sched).trace) ∧
    ((∀ x ∈ sched, x.pending = w.pending) →
      ((AsyncConnection.poll timeout w sched).world).pending = w.pending) ∧
    (Act.syncRecv ∉ (Connection.poll fuel timeout w sched).trace) ∧
    ((∀ x ∈ sched, x.pending = w.pending) →
      ((Connection.poll fuel timeout w sched).world).pending = w.pending) := by
  refine ⟨?_, ?_, ?_, ?_⟩
  · cases he : w.event
    · cases timeout with
      | none =>
        cases sched <;> simp [AsyncConnection.poll, he, RunResult.trace]
      | some n =>
        cases n <;> cases sched <;>
          simp [AsyncConnection.poll, he, RunResult.trace]
    · simp [AsyncConnection.poll, he, RunResult.trace]
  · intro hs
    cases he : w.event
    · cases timeout with
      | none =>
        cases sched with
        | nil => simp [AsyncConnection.poll, he, RunResult.world]
        | cons x r =>
          simp [AsyncConnection.poll, he, RunResult.world, hs x (by simp)]
      | some n =>
        cases n with
        | zero => simp [AsyncConnection.poll, he, RunResult.world]
        | succ k =>
          cases sched with
          | nil => simp [AsyncConnection.poll, he, RunResult.world]
          | cons x r =>
            simp [AsyncConnection.poll, he, RunResult.world, hs x (by simp)]
    · simp [AsyncConnection.poll, he, RunResult.world]
  · unfold Connection.poll
    cases hcp : connPoll w with
    | error e => simp [RunResult.trace]
    | ok b =>
      cases b
      · have hn := wfi_no_syncRecv fuel w sched
        cases hw : Connection.wait_for_input fuel w sched with
        | done v w1 tr =>
          rw [hw] at hn
          simp only [RunResult.trace] at hn
          cases hfp : connPoll w1 <;> simp [RunResult.trace, hn, hfp]
        | error e w1 tr =>
          rw [hw] at hn
          simp only [RunResult.trace] at hn
          simp [RunResult.trace, hn]
        | suspended w1 tr =>
          rw [hw] at hn
          simp only [RunResult.trace] at hn
          cases timeout <;> simp [RunResult.trace, hn]
        | blockedSync w1 tr =>
          rw [hw] at hn
          simp only [RunResult.trace] at hn
          simp [RunResult.trace, hn]
      · simp [RunResult.trace]
  · intro hs
    unfold Connection.poll
    cases hcp : connPoll w with
    | error e => simp [RunResult.world]
    | ok b =>
      cases b
      · have hp := @wfi_world_pending α w.pending fuel w sched rfl hs
        cases hw : Connection.wait_for_input fuel w sched with
        | done v w1 tr =>
          rw [hw] at hp
          simp only [RunResult.world] at hp
          cases hfp : connPoll w1 <;> simp [RunResult.world, hp, hfp]
        | error e w1 tr =>
          rw [hw] at hp
          simp only [RunResult.world] at hp
          simp [RunResult.world, hp]
        | suspended w1 tr =>
          rw [hw] at hp
          simp only [RunResult.world] at hp
          cases timeout <;> simp [RunResult.world, hp]
        | blockedSync w1 tr =>
          rw [hw] at hp
          simp only [RunResult.world] at hp
          simp [RunResult.world, hp]
      · simp [RunResult.world]

/-- Witness: C2 at a concrete call on an open endpoint with one pending
message. -/
theorem C2_poll_frame_witness :
    Act.syncRecv ∉ (Connection.poll 2 (some 0) oneMsgWorld []).trace ∧
    ((Connection.poll 2 (some 0) oneMsgWorld []).world).pending =
      oneMsgWorld.pending := by
  have h := C2_poll_frame Nat (some 0) 2 oneMsgWorld []
  exact ⟨h.2.2.1, h.2.2.2 (fun x hx => absurd hx (List.not_mem_nil x))⟩

/-- The non-blocking probe answers true exactly on an open endpoint with
data pending. -/
theorem connPoll_ok_true {w : World α} :
    connPoll w = .ok true ↔ w.closed = false ∧ w.pending ≠ [] := by
  unfold connPoll
  cases hc : w.closed <;> rcases hp : w.pending with _ | ⟨m, r⟩ <;>
    simp [hp]

/-- C6: in both variants, `poll` answers false exactly when its bounded
wait timed out: `AsyncConnection.poll` returns false iff the timeout was
finite and the event was not (and did not become) set within it, and
`Connection.poll` returns false iff the timeout was finite and the recheck
loop was still suspended when it expired; whenever the wait completes
without the timeout, the answer is true. -/
theorem C6_poll_false_iff_timeout (α : Type) (timeout : Option Nat)
    (fuel : Nat) (w : World α) (sched : List (World α)) (b : Bool)
    (w' : World α) (tr : List Act) :
    (AsyncConnection.poll timeout w sched = .done b w' tr →
      (b = false ↔
        timeout ≠ none ∧ w.event = false ∧ (timeout = some 0 ∨ sched = []))) ∧
    (Connection.poll fuel timeout w sched = .done b w' tr →
      (b = false ↔ timeout ≠ none ∧
        (Connection.wait_for_input fuel w sched).isSuspended = true)) := by
  constructor
  · intro h
    cases he : w.event
    · cases timeout with
      | none =>
        cases sched with
        | nil => simp [AsyncConnection.poll, he] at h
        | cons x r =>
          simp [AsyncConnection.poll, he] at h
          rcases h with ⟨rfl, rfl, rfl⟩
          simp [he]
      | some n =>
        cases n with
        | zero =>
          simp [AsyncConnection.poll, he] at h
          rcases h with ⟨rfl, rfl, rfl⟩
          simp [he]
        | succ k =>
          cases sched with
          | nil =>
            simp [AsyncConnection.poll, he] at h
            rcases h with ⟨rfl, rfl, rfl⟩
            simp [he]
          | cons x r =>
            simp [AsyncConnection.poll, he] at h
            rcases h with ⟨rfl, rfl, rfl⟩
            simp [he]
    · simp [AsyncConnection.poll, he] at h
      rcases h with ⟨rfl, rfl, rfl⟩
      simp [he]
  · intro h
    cases hcp : connPoll w with
    | error e => simp [Connection.poll, hcp] at h
    | ok b0 =>
      cases b0
      · cases hw : Connection.wait_for_input fuel w sched with
        | done v w1 tr1 =>
          cases hfp : connPoll w1 with
          | error e => simp [Connection.poll, hcp, hw, hfp] at h
          | ok b2 =>
            simp [Connection.poll, hcp, hw, hfp] at h
            rcases h with ⟨rfl, rfl, rfl⟩
            rcases wfi_done hw with ⟨hc1, hp1, -⟩
            have hb2 : connPoll w1 = .ok true := connPoll_ok_true.mpr ⟨hc1, hp1⟩
            rw [hfp] at hb2
            simp at hb2
            subst hb2
            simp [RunResult.isSuspended]
        | error e w1 tr1 => simp [Connection.poll, hcp, hw] at h
        | suspended w1 tr1 =>
          cases timeout with
          | none => simp [Connection.poll, hcp, hw] at h
          | some n =>
            simp [Connection.poll, hcp, hw] at h
            rcases h with ⟨rfl, rfl, rfl⟩
            simp [RunResult.isSuspended]
        | blockedSync w1 tr1 => simp [Connection.poll, hcp, hw] at h
      · simp [Connection.poll, hcp] at h
        rcases h with ⟨rfl, rfl, rfl⟩
        rcases connPoll_ok_true.mp hcp with ⟨hc2, hp2⟩
        rw [@wfi_of_probe_true α fuel w sched hc2 hp2]
        simp [RunResult.isSuspended]

/-- Witness: C6 applied to a concrete timed-out `Connection.poll`. -/
theorem C6_poll_false_iff_timeout_witness :
    false = false ↔ (some 0 : Option Nat) ≠ none ∧
      (Connection.wait_for_input 1 freshWorld
        ([] : List (World Nat))).isSuspended = true :=
  (C6_poll_false_iff_timeout Nat (some 0) 1 freshWorld [] false freshWorld
    [Act.probeRead false, Act.probeRead false, Act.suspend]).2 (by decide)

/-- C5 (amended): `Connection.poll` with timeout 0 is as the claim says —
true immediately (a single successful probe, no suspension) when data is
pending, false immediately when nothing is pending (no wakeup can be
consumed within a zero timeout).  `AsyncConnection.poll` with timeout 0
instead returns the current value of the read event flag, whatever the
channel holds. -/
theorem C5_poll_zero (α : Type) (fuel : Nat) (w : World α) :
    w.closed = false →
    ((w.pending ≠ [] → ∀ sched, Connection.poll fuel (some 0) w sched =
        .done true w [Act.probeRead true]) ∧
     (w.pending = [] →
       (Connection.poll fuel (some 0) w []).retVal = some false) ∧
     (∀ sched, AsyncConnection.poll (some 0) w sched = .done w.event w [])) := by
  intro hc
  refine ⟨?_, ?_, ?_⟩
  · intro hp sched
    have h1 : connPoll w = .ok true := connPoll_ok_true.mpr ⟨hc, hp⟩
    simp [Connection.poll, h1]
  · intro hp
    rcases @wfi_suspended_of_empty α fuel w hc hp with ⟨w1, tr, hw⟩
    have h0 : connPoll w = .ok false := by
      unfold connPoll
      simp [hc, hp]
    simp [Connection.poll, h0, hw, RunResult.retVal]
  · intro sched
    cases he : w.event <;> simp [AsyncConnection.poll, he]

/-- Witness: C5 (amended) at concrete worlds with and without pending
data. -/
theorem C5_poll_zero_witness :
    Connection.poll 1 (some 0) twoMsgWorld [] =
      .done true twoMsgWorld [Act.probeRead true] ∧
    (Connection.poll 1 (some 0) freshWorld []).retVal = some false ∧
    AsyncConnection.poll (some 0) twoMsgWorld [] =
      .done twoMsgWorld.event twoMsgWorld [] := by
  refine ⟨(C5_poll_zero Nat 1 twoMsgWorld rfl).1 (by decide) [],
    (C5_poll_zero Nat 1 freshWorld rfl).2.1 rfl,
    (C5_poll_zero Nat 1 twoMsgWorld rfl).2.2 []⟩

/-- On a closed endpoint the recheck loop fails at its very first probe. -/
theorem wfi_closed {fuel : Nat} {w : World α} {sched : List (World α)}
    (hc : w.closed = true) :
    Connection.wait_for_input fuel w sched =
      .error .closedConnection w [Act.probeErr] := by
  cases fuel <;> simp [Connection.wait_for_input, connPoll, hc]

/-- C3 (amended): every `Connection` operation touches the endpoint first
and so fails with `ClosedConnection` on a closed facade; an
`AsyncConnection` operation fails that way only once its event flag lets
it reach the endpoint (`recv`/`send` with the event set) — with the event
unset it suspends instead, and `poll` never fails at all (see the
counterexample).  Closing is one-way: a successful close always leaves
the closed flag set, and no operation resets it. -/
theorem C3_closed_ops (α : Type) (v : α) (fuel : Nat) (timeout : Option Nat)
    (w : World α) (sched : List (World α)) (buf : Bytes) (offset : Int)
    (size : Option Int) (maxlength : Option Nat) (cap off2 : Nat)
    (wb : World Bytes) (schedb : List (World Bytes)) :
    w.closed = true → wb.closed = true →
    (Connection.recv fuel w sched =
        .error .closedConnection w [Act.probeErr] ∧
     Connection.poll fuel timeout w sched =
        .error .closedConnection w [Act.probeErr] ∧
     Connection.send v w = .error .closedConnection w [Act.syncSend] ∧
     Connection.send_bytes buf offset size wb =
        .error .closedConnection wb [Act.syncSend] ∧
     Connection.recv_bytes fuel maxlength wb schedb =
        .error .closedConnection wb [Act.probeErr] ∧
     Connection.recv_bytes_into fuel cap off2 wb schedb =
        .error .closedConnection wb [Act.probeErr] ∧
     (w.event = true → AsyncConnection.recv w sched =
        .error .closedConnection w [Act.syncRecv]) ∧
     (w.writeEvent = true → AsyncConnection.send v w sched =
        .error .closedConnection w [Act.syncSend]) ∧
     (∀ w2 w3 : World α, Connection.close w2 = .ok w3 → w3.closed = true) ∧
     (∀ w2 w3 : World α, AsyncConnection.close w2 = .ok w3 →
        w3.closed = true)) := by
  intro hc hcb
  refine ⟨?_, ?_, ?_, ?_, ?_, ?_, ?_, ?_, ?_, ?_⟩
  · simp [Connection.recv, wfi_closed hc]
  · simp [Connection.poll, connPoll, hc]
  · simp [Connection.send, connSend, hc]
  · simp [Connection.send_bytes, connSendBytes, hcb]
  · simp [Connection.recv_bytes, wfi_closed hcb]
  · simp [Connection.recv_bytes_into, wfi_closed hcb]
  · intro he
    simp [AsyncConnection.recv, awaitEvent, connRecv, he, hc]
  · intro hwe
    simp [AsyncConnection.send, awaitEvent, connSend, hwe, hc]
  · intro w2 w3 h
    unfold Connection.close connClose at h
    cases hc2 : w2.closed
    · rw [hc2] at h
      simp at h
      rw [← h]
    · rw [hc2] at h
      simp at h
  · intro w2 w3 h
    unfold AsyncConnection.close connFileno connClose at h
    cases hc2 : w2.closed
    · simp [hc2] at h
      rw [← h]
    · simp [hc2] at h

/-- Witness: C3 (amended) at a concrete closed world. -/
theorem C3_closed_ops_witness :
    Connection.recv 2 closedWorld [] =
      .error .closedConnection closedWorld [Act.probeErr] ∧
    Connection.send 7 closedWorld =
      .error .closedConnection closedWorld [Act.syncSend] := by
  have h := C3_closed_ops Nat 7 2 (some 0) closedWorld []
    [] 0 none none 0 0 { freshBytes with closed := true } [] rfl rfl
  exact ⟨h.1, h.2.2.1⟩

/-- C7 (amended): what the two send paths actually do.  `Connection.send`
performs the synchronous send immediately, with no suspension and no
readiness confirmation of any kind; `AsyncConnection.send` performs it as
soon as the write event flag is set — waiting for that flag if unset, but
never probing actual write readiness — and clears the flag afterwards. -/
theorem C7_send_behavior (α : Type) (v : α) (w : World α)
    (sched : List (World α)) :
    (w.closed = false → w.writeReady = true →
      Connection.send v w =
        .done () { w with sent := w.sent ++ [v] } [Act.syncSend]) ∧
    (w.writeEvent = true → w.closed = false → w.writeReady = true →
      AsyncConnection.send v w sched =
        .done () { w with sent := w.sent ++ [v], writeEvent := false }
          [Act.syncSend, Act.clearEvent]) ∧
    (w.writeEvent = false →
      AsyncConnection.send v w [] = .suspended w [Act.suspend]) := by
  refine ⟨?_, ?_, ?_⟩
  · intro hc hwr
    simp [Connection.send, connSend, hc, hwr]
  · intro hwe hc hwr
    simp [AsyncConnection.send, awaitEvent, connSend, hwe, hc, hwr]
  · intro hwe
    simp [AsyncConnection.send, awaitEvent, hwe]

/-- Witness: C7 (amended) at concrete sends. -/
theorem C7_send_behavior_witness :
    Connection.send 3 freshWorld =
      .done () { freshWorld with sent := freshWorld.sent ++ [3] }
        [Act.syncSend] ∧
    AsyncConnection.send 3 startWorld [] =
      .done ()
        { startWorld with sent := startWorld.sent ++ [3], writeEvent := false }
        [Act.syncSend, Act.clearEvent] ∧
    AsyncConnection.send 3 freshWorld [] = .suspended freshWorld [Act.suspend] :=
  ⟨(C7_send_behavior Nat 3 freshWorld []).1 rfl rfl,
   (C7_send_behavior Nat 3 startWorld []).2.1 rfl rfl rfl,
   (C7_send_behavior Nat 3 freshWorld []).2.2 rfl⟩

/-- C9 (amended): the bounds validation lives inside the synchronous
primitive, not at the facade boundary.  `Connection.send_bytes` (which
never suspends) raises `InvalidArgument` for a negative offset or, when a
size is given, for `offset + size > len(buffer)` — and also for an offset
beyond the buffer even with no size given; with valid bounds it completes
and consumes nothing from the channel.  `AsyncConnection.send_bytes`
applies the same validation only after its write-event wait: with the
event unset it suspends before any validation, with the event set it
raises `InvalidArgument` as the synchronous variant does. -/
theorem C9_send_bytes_bounds (buf : Bytes) (offset : Int)
    (size : Option Int) (w : World Bytes) (sched : List (World Bytes)) :
    w.closed = false →
    ((offset < 0 → Connection.send_bytes buf offset size w =
        .error .invalidArgument w [Act.syncSend]) ∧
     (∀ s, size = some s → (buf.length : Int) < offset + s →
        Connection.send_bytes buf offset size w =
          .error .invalidArgument w [Act.syncSend]) ∧
     (0 ≤ offset → offset ≤ (buf.length : Int) →
      (∀ s, size = some s → 0 ≤ s ∧ offset + s ≤ (buf.length : Int)) →
      w.writeReady = true →
      ∃ w2, Connection.send_bytes buf offset size w =
        .done () w2 [Act.syncSend] ∧ w2.pending = w.pending) ∧
     (w.writeEvent = false →
        AsyncConnection.send_bytes buf offset size w [] =
          .suspended w [Act.suspend]) ∧
     (w.writeEvent = true → offset < 0 →
        AsyncConnection.send_bytes buf offset size w sched =
          .error .invalidArgument w [Act.syncSend])) := by
  intro hc
  refine ⟨?_, ?_, ?_, ?_, ?_⟩
  · intro h1
    simp [Connection.send_bytes, connSendBytes, hc, h1]
  · intro s hs hlt
    subst hs
    by_cases h1 : offset < 0
    · simp [Connection.send_bytes, connSendBytes, hc, h1]
    · by_cases h2 : (buf.length : Int) < offset
      · simp [Connection.send_bytes, connSendBytes, hc, h1, h2]
      · by_cases h3 : s < 0
        · simp [Connection.send_bytes, connSendBytes, hc, h1, h2, h3]
        · simp [Connection.send_bytes, connSendBytes, hc, h1, h2, h3, hlt]
  · intro h1 h2 h3 hwr
    have h1' : ¬(offset < 0) := by omega
    have h2' : ¬((buf.length : Int) < offset) := by omega
    rcases size with _ | s
    · exact ⟨{ w with sent := w.sent ++ [buf.drop offset.toNat] },
        by simp [Connection.send_bytes, connSendBytes, hc, h1', h2', hwr],
        rfl⟩
    · rcases h3 s rfl with ⟨h4, h5⟩
      have h4' : ¬(s < 0) := by omega
      have h5' : ¬((buf.length : Int) < offset + s) := by omega
      exact ⟨{ w with
          sent := w.sent ++ [(buf.drop offset.toNat).take s.toNat] },
        by simp [Connection.send_bytes, connSendBytes, hc, h1', h2', h4',
          h5', hwr],
        rfl⟩
  · intro hwe
    simp [AsyncConnection.send_bytes, awaitEvent, hwe]
  · intro hwe h1
    simp [AsyncConnection.send_bytes, awaitEvent, connSendBytes, hwe, hc, h1]

/-- Witness: C9 (amended) at concrete buffers and offsets. -/
theorem C9_send_bytes_bounds_witness :
    Connection.send_bytes [1, 2, 3] (-1) none freshBytes =
      .error .invalidArgument freshBytes [Act.syncSend] ∧
    Connection.send_bytes [1, 2, 3] 1 (some 5) freshBytes =
      .error .invalidArgument freshBytes [Act.syncSend] ∧
    (∃ w2, Connection.send_bytes [1, 2, 3] 1 (some 2) freshBytes =
      .done () w2 [Act.syncSend] ∧ w2.pending = freshBytes.pending) ∧
    AsyncConnection.send_bytes [1, 2, 3] 0 none freshBytes [] =
      .suspended freshBytes [Act.suspend] := by
  have ha := C9_send_bytes_bounds [1, 2, 3] (-1) none freshBytes [] rfl
  have hb := C9_send_bytes_bounds [1, 2, 3] 1 (some 5) freshBytes [] rfl
  have hd := C9_send_bytes_bounds [1, 2, 3] 1 (some 2) freshBytes [] rfl
  have he := C9_send_bytes_bounds [1, 2, 3] 0 none freshBytes [] rfl
  exact ⟨ha.1 (by decide), hb.2.1 5 rfl (by decide),
    hd.2.2.1 (by decide) (by decide)
      (fun s hs => by cases hs; exact ⟨by decide, by decide⟩) rfl,
    he.2.2.2.1 rfl⟩

/-- C10: the recheck-loop contract holds in the `Connection` variant:
`_wait_for_input` returns only into a world whose latest non-blocking
probe answered true (so a receive would not block at that moment), its
trace ends with that successful probe, it clears the event before every
re-suspension, and `recv`, `recv_bytes` and `recv_bytes_into` perform
their synchronous receive as the single action after `_wait_for_input`
has returned. -/
theorem C10_wait_for_input_contract (α : Type) (fuel : Nat) (w : World α)
    (sched : List (World α)) :
    ((∀ (v : Unit) w1 tr,
        Connection.wait_for_input fuel w sched = .done v w1 tr →
        connPoll w1 = .ok true ∧ ∃ tr0, tr = tr0 ++ [Act.probeRead true]) ∧
     clearBetweenSuspends
        (Connection.wait_for_input fuel w sched).trace = true ∧
     (∀ v w2 tr2, Connection.recv fuel w sched = .done v w2 tr2 →
        ∃ w1 tr1, Connection.wait_for_input fuel w sched = .done () w1 tr1 ∧
          tr2 = tr1 ++ [Act.syncRecv]) ∧
     (∀ (fuelb : Nat) maxlength (wb : World Bytes) schedb v w2 tr2,
        Connection.recv_bytes fuelb maxlength wb schedb = .done v w2 tr2 →
        ∃ w1 tr1,
          Connection.wait_for_input fuelb wb schedb = .done () w1 tr1 ∧
          tr2 = tr1 ++ [Act.syncRecv]) ∧
     (∀ (fuelb : Nat) cap off (wb : World Bytes) schedb v w2 tr2,
        Connection.recv_bytes_into fuelb cap off wb schedb =
          .done v w2 tr2 →
        ∃ w1 tr1,
          Connection.wait_for_input fuelb wb schedb = .done () w1 tr1 ∧
          tr2 = tr1 ++ [Act.syncRecv])) := by
  refine ⟨?_, wfi_clearBetween fuel w sched, ?_, ?_, ?_⟩
  · intro v w1 tr h
    rcases wfi_done h with ⟨hc1, hp1, tr0, htr⟩
    exact ⟨connPoll_ok_true.mpr ⟨hc1, hp1⟩, tr0, htr⟩
  · intro v w2 tr2 h
    unfold Connection.recv at h
    cases hw : Connection.wait_for_input fuel w sched with
    | done vu w1 tr1 =>
      rw [hw] at h
      simp at h
      cases hr : connRecv w1 with
      | error e => rw [hr] at h; simp at h
      | ok o =>
        rw [hr] at h
        rcases o with _ | ⟨m, wr⟩
        · simp at h
        · simp at h
          exact ⟨w1, tr1, rfl, h.2.2.symm⟩
    | error e w1 tr1 => rw [hw] at h; simp at h
    | suspended w1 tr1 => rw [hw] at h; simp at h
    | blockedSync w1 tr1 => rw [hw] at h; simp at h
  · intro fuelb maxlength wb schedb v w2 tr2 h
    unfold Connection.recv_bytes at h
    cases hw : Connection.wait_for_input fuelb wb schedb with
    | done vu w1 tr1 =>
      rw [hw] at h
      simp at h
      cases hr : connRecvBytes maxlength w1 with
      | error e => rw [hr] at h; simp at h
      | ok o =>
        rw [hr] at h
        rcases o with _ | ⟨m, wr⟩
        · simp at h
        · simp at h
          exact ⟨w1, tr1, rfl, h.2.2.symm⟩
    | error e w1 tr1 => rw [hw] at h; simp at h
    | suspended w1 tr1 => rw [hw] at h; simp at h
    | blockedSync w1 tr1 => rw [hw] at h; simp at h
  · intro fuelb cap off wb schedb v w2 tr2 h
    unfold Connection.recv_bytes_into at h
    cases hw : Connection.wait_for_input fuelb wb schedb with
    | done vu w1 tr1 =>
      rw [hw] at h
      simp at h
      cases hr : connRecvBytesInto cap off w1 with
      | error e => rw [hr] at h; simp at h
      | ok o =>
        rw [hr] at h
        rcases o with _ | ⟨m, wr⟩
        · simp at h
        · simp at h
          exact ⟨w1, tr1, rfl, h.2.2.symm⟩
    | error e w1 tr1 => rw [hw] at h; simp at h
    | suspended w1 tr1 => rw [hw] at h; simp at h
    | blockedSync w1 tr1 => rw [hw] at h; simp at h

/-- Witness: C10 applied to a concrete completed wait. -/
theorem C10_wait_for_input_contract_witness :
    connPoll { freshWorld with pending := [7] } = .ok true ∧
    ∃ tr0, [Act.probeRead false, Act.suspend, Act.clearEvent,
        Act.probeRead true] = tr0 ++ [Act.probeRead true] :=
  (C10_wait_for_input_contract Nat 1 freshWorld
    [{ freshWorld with event := true, pending := [7] }]).1 ()
    { freshWorld with pending := [7] }
    [Act.probeRead false, Act.suspend, Act.clearEvent, Act.probeRead true]
    (by decide)

/-- C8: round-trip identity over an `AsyncPipe` pair.  A value sent with
`AsyncConnection.send` is delivered so that the raw peer's next
synchronous receive yields exactly that value, and a value the raw peer
sends is returned unchanged by the next `AsyncConnection.recv` (after the
event loop's reader callback fires); likewise for raw-byte payloads via
`send_bytes`/`recv_bytes`. -/
theorem C8_roundtrip (v : Nat) (bs : Bytes) :
    ((AsyncConnection.send v startWorld []).retVal = some () ∧
     connRecv (deliver (AsyncConnection.send v startWorld []).world rawPeer) =
       .ok (some (v, rawPeer)) ∧
     connSend v rawPeer = .ok (some { rawPeer with sent := [v] }) ∧
     (AsyncConnection.recv
        (loopCycle (deliver { rawPeer with sent := [v] } startWorld))
        []).retVal = some v ∧
     (AsyncConnection.send_bytes bs 0 none startBytes []).retVal = some () ∧
     connRecvBytes none
        (deliver (AsyncConnection.send_bytes bs 0 none startBytes []).world
          rawPeerBytes) = .ok (some (bs, rawPeerBytes)) ∧
     connSendBytes bs 0 none rawPeerBytes =
       .ok (some { rawPeerBytes with sent := [bs] }) ∧
     (AsyncConnection.recv_bytes none
        (loopCycle (deliver { rawPeerBytes with sent := [bs] } startBytes))
        []).retVal = some bs) := by
  have hb : ¬((bs.length : Int) < 0) := by omega
  refine ⟨rfl, rfl, rfl, rfl, ?_, ?_, ?_, ?_⟩
  · simp [AsyncConnection.send_bytes, awaitEvent, connSendBytes, startBytes,
      freshBytes, loopCycle, hb, RunResult.retVal]
  · simp [AsyncConnection.send_bytes, awaitEvent, connSendBytes, connRecvBytes,
      deliver, startBytes, freshBytes, rawPeerBytes, loopCycle, hb,
      RunResult.world]
  · simp [connSendBytes, rawPeerBytes, freshBytes, hb]
  · simp [AsyncConnection.recv_bytes, awaitEvent, connRecvBytes, deliver,
      loopCycle, startBytes, freshBytes, rawPeerBytes, RunResult.retVal]
